import Mathlib

/-!
Verification development for the scenescape tracker service.

Each definition is a shallow embedding of a function of the repository,
translated from the C++ sources under src/tracker and src/controller.
C++ doubles are represented as rationals where they are only carried
around (the message codec, the scene records) and as integers in the
tracker core, whose embedded fragments only compare and add them, so that
concrete runs stay kernel-evaluable; byte strings are lists of byte
values or Lean strings, machine integers are Int.  Components whose
implementation is not part of the sources (only their declarations or
callers are) carry a doc comment starting with Modelled from the spec.
-/

namespace SceneScape

/-! ## Topic validator, src/tracker/src/topic_utils.cpp

`isValidTopicSegment` walks the bytes of the segment and accepts only
alphanumeric bytes (C locale `std::isalnum` over `unsigned char`), hyphen,
underscore and dot; an empty segment is rejected.  Bytes are modelled as
natural numbers below 256. -/

/-- C locale `std::isalnum` on an `unsigned char` value: true exactly for
the ASCII ranges A-Z (65..90), a-z (97..122) and 0-9 (48..57). -/
def isalnum (c : Nat) : Bool :=
  (65 ≤ c && c ≤ 90) || (97 ≤ c && c ≤ 122) || (48 ≤ c && c ≤ 57)

/-- One loop step of `isValidTopicSegment`: the byte is allowed when it is
alphanumeric or one of hyphen (45), underscore (95), dot (46). -/
def isAllowedTopicByte (c : Nat) : Bool :=
  isalnum c || c == 45 || c == 95 || c == 46

/-- `tracker::isValidTopicSegment` (topic_utils.cpp): rejects the empty
segment, otherwise requires every byte to be allowed. -/
def isValidTopicSegment (segment : List Nat) : Bool :=
  if segment.isEmpty then false else segment.all isAllowedTopicByte

/-- String front-end of `isValidTopicSegment` as used by the message
handler; ASCII strings are mapped to their byte values (for the allowed
characters UTF-8 bytes and code points coincide). -/
def isValidTopicSegmentStr (s : String) : Bool :=
  isValidTopicSegment (s.data.map Char.toNat)

/-! ## MQTT connect-failure classification, src/tracker/src/mqtt_client.cpp

`MqttClient::isRetryableConnectError` switches on the MQTT v3.1.1 CONNACK
return code: 1, 2, 4 and 5 are permanent failures, everything else is
retryable.  `MqttClient::on_failure` stores `retryable ? 1 : 0` into the
process exit code for CONNECT tokens. -/

/-- `MqttClient::isRetryableConnectError` (mqtt_client.cpp): the switch
returns false for CONNACK codes 1, 2, 4, 5 and true for all other codes. -/
def isRetryableConnectError (rc : Int) : Bool :=
  if rc = 1 ∨ rc = 2 ∨ rc = 4 ∨ rc = 5 then false else true

/-- Exit code stored by `MqttClient::on_failure` for a failed CONNECT
token: `exit_code_ = retryable ? 1 : 0`. -/
def onFailureConnectExitCode (rc : Int) : Int :=
  if isRetryableConnectError rc then 1 else 0

/-! ## Shutdown drain loop, src/tracker/src/mqtt_client.cpp

`MqttClient::disconnect(drain_timeout)` sets the stop flag, logs the drain
timeout, and then spins `while (callbacks_in_flight_.load() > 0)` sleeping
one millisecond per iteration.  The loop is modelled against an arbitrary
trace of counter values (the value the load returns at the i-th check);
`fuel` bounds how many iterations we observe.  The result is the index of
the first check that saw zero, or none when the loop was still spinning
after `fuel` checks. -/

/-- The spin loop of `MqttClient::disconnect`: exits at the first check
where the in-flight counter reads zero. -/
def drainLoop (counter : Nat → Nat) : Nat → Nat → Option Nat
  | 0, _ => none
  | fuel + 1, i => if counter i = 0 then some i else drainLoop counter fuel (i + 1)

/-- The drain phase of `MqttClient::disconnect`: the `drain_timeout`
argument is logged but does not reach the loop, which is governed solely
by the counter trace. -/
def disconnectDrain (drainTimeoutMs : Nat) (counter : Nat → Nat) (fuel : Nat) : Option Nat :=
  drainLoop counter fuel 0

/-! ## Configuration loading, src/tracker/src/config_loader.cpp

Only the part of `load_config` that the claims touch is embedded: the
extraction of defaults from the already validated JSON document is
abstracted into the starting `ServiceConfig`, and the environment override
section is translated literally.  The environment is a function from
variable names to their optional values; `get_env` returns the value
whenever the variable is set, even when it is the empty string. -/

/-- `tracker::ServiceConfig` (config_loader.hpp). -/
structure ServiceConfig where
  log_level : String
  healthcheck_port : Int
  deriving Repr, DecidableEq

/-- `get_env` (config_loader.cpp): `std::getenv` wrapped into an optional;
a variable set to the empty string yields `some ""`, not `none`. -/
def get_env (env : String → Option String) (name : String) : Option String :=
  env name

/-- `parse_log_level` (config_loader.cpp): accepts exactly trace, debug,
info, warn, error and otherwise fails with the invalid-level message. -/
def parse_log_level (level source : String) : Except String String :=
  if level = "trace" ∨ level = "debug" ∨ level = "info" ∨ level = "warn" ∨ level = "error"
  then Except.ok level
  else Except.error ("Invalid " ++ source ++ ": " ++ level)

/-- `parse_port` (config_loader.cpp): `std::stoi` followed by the range
check 1024..65535.  `String.toInt?` stands in for `std::stoi`; both reject
the empty string (for the inputs the claims exercise they agree). -/
def parse_port (portStr source : String) : Except String Int :=
  match portStr.toInt? with
  | none => Except.error ("Invalid " ++ source ++ ": " ++ portStr)
  | some p =>
    if p < 1024 ∨ p > 65535 then
      Except.error (source ++ " out of range: " ++ portStr)
    else
      Except.ok p

/-- The environment override section at the end of `load_config`
(config_loader.cpp): `config` already holds the values taken from the
config file (or their defaults); each override applies only when `get_env`
reports the variable as set, and a failing parse aborts the load. -/
def applyEnvOverrides (config : ServiceConfig) (env : String → Option String) :
    Except String ServiceConfig :=
  let afterLevel : Except String ServiceConfig :=
    match get_env env "TRACKER_LOG_LEVEL" with
    | some v =>
      match parse_log_level v "TRACKER_LOG_LEVEL" with
      | Except.ok lvl => Except.ok { config with log_level := lvl }
      | Except.error e => Except.error e
    | none => Except.ok config
  match afterLevel with
  | Except.error e => Except.error e
  | Except.ok cfg =>
    match get_env env "TRACKER_HEALTHCHECK_PORT" with
    | some v =>
      match parse_port v "TRACKER_HEALTHCHECK_PORT" with
      | Except.ok p => Except.ok { cfg with healthcheck_port := p }
      | Except.error e => Except.error e
    | none => Except.ok cfg

/-! ## Scene data model, src/tracker/inc/scene_loader.hpp

`Camera` and `Scene` as declared in scene_loader.hpp; the double-valued
calibration fields are rationals. -/

/-- `tracker::CameraDistortion` (scene_loader.hpp). -/
structure CameraDistortion where
  k1 : ℚ := 0
  k2 : ℚ := 0
  p1 : ℚ := 0
  p2 : ℚ := 0
  deriving Repr, DecidableEq

/-- `tracker::CameraIntrinsics` (scene_loader.hpp). -/
structure CameraIntrinsics where
  fx : ℚ := 0
  fy : ℚ := 0
  cx : ℚ := 0
  cy : ℚ := 0
  distortion : CameraDistortion := {}
  deriving Repr, DecidableEq

/-- `tracker::CameraExtrinsics` (scene_loader.hpp). -/
structure CameraExtrinsics where
  translation : ℚ × ℚ × ℚ := (0, 0, 0)
  rotation : ℚ × ℚ × ℚ := (0, 0, 0)
  scale : ℚ × ℚ × ℚ := (1, 1, 1)
  deriving Repr, DecidableEq

/-- `tracker::Camera` (scene_loader.hpp). -/
structure Camera where
  uid : String
  name : String
  intrinsics : CameraIntrinsics := {}
  extrinsics : CameraExtrinsics := {}
  deriving Repr, DecidableEq

/-- `tracker::Scene` (scene_loader.hpp). -/
structure Scene where
  uid : String
  name : String
  cameras : List Camera
  deriving Repr, DecidableEq

/-! ## Scene registry, src/tracker/src/scene_registry.cpp

The two `std::unordered_map<std::string, size_t>` members are modelled as
association lists to which fresh keys are appended (the code inserts a key
only after checking it is absent, so insert-or-assign never overwrites).
`register_scenes` first clears all three members and copies the new scene
list, then builds the camera maps scene by scene; on the first duplicate
camera uid it throws `DuplicateCameraError` and leaves the partially built
state behind.  The embedding returns the post-call state together with the
optional error. -/

/-- `tracker::DuplicateCameraError` (scene_registry.hpp): carries the
camera uid, the name of the scene it was already registered to, and the
name of the scene being registered. -/
structure DuplicateCameraError where
  camera_id : String
  scene1 : String
  scene2 : String
  deriving Repr, DecidableEq

/-- `tracker::SceneRegistry` (scene_registry.hpp): the scene list plus the
two camera indexes. -/
structure SceneRegistry where
  scenes : List Scene
  cameraToScene : List (String × Nat)
  cameraToCamera : List (String × Nat)
  deriving Repr, DecidableEq

/-- A default registry, matching a default-constructed `SceneRegistry`. -/
def SceneRegistry.empty : SceneRegistry := ⟨[], [], []⟩

/-- The inner camera loop of `register_scenes`: for each camera of the
scene at index `sceneIdx` (named `sceneName`), look the uid up in the
camera map; on a hit, throw with the existing scene name and the current
scene name; otherwise append both map entries and continue.  `camIdx`
tracks the camera index within the scene. -/
def registerCamerasLoop (sceneIdx : Nat) (sceneName : String) :
    List Camera → Nat → SceneRegistry → SceneRegistry × Option DuplicateCameraError
  | [], _, reg => (reg, none)
  | cam :: rest, camIdx, reg =>
    match reg.cameraToScene.lookup cam.uid with
    | some existingIdx =>
      (reg, some ⟨cam.uid, ((reg.scenes.getD existingIdx ⟨"", "", []⟩).name), sceneName⟩)
    | none =>
      registerCamerasLoop sceneIdx sceneName rest (camIdx + 1)
        { reg with
          cameraToScene := reg.cameraToScene ++ [(cam.uid, sceneIdx)]
          cameraToCamera := reg.cameraToCamera ++ [(cam.uid, camIdx)] }

/-- The outer scene loop of `register_scenes`. -/
def registerScenesLoop :
    List Scene → Nat → SceneRegistry → SceneRegistry × Option DuplicateCameraError
  | [], _, reg => (reg, none)
  | sc :: rest, sceneIdx, reg =>
    match registerCamerasLoop sceneIdx sc.name sc.cameras 0 reg with
    | (reg1, some e) => (reg1, some e)
    | (reg1, none) => registerScenesLoop rest (sceneIdx + 1) reg1

/-- `SceneRegistry::register_scenes` (scene_registry.cpp): clears the
previous registrations, copies the new scene list, then fills the camera
maps; the pre-call registry `reg` contributes nothing to the result beyond
being the object the method ran on. -/
def register_scenes (reg : SceneRegistry) (scenes : List Scene) :
    SceneRegistry × Option DuplicateCameraError :=
  registerScenesLoop scenes 0 { scenes := scenes, cameraToScene := [], cameraToCamera := [] }

/-- `SceneRegistry::find_scene_for_camera` (scene_registry.cpp). -/
def find_scene_for_camera (reg : SceneRegistry) (camera_id : String) : Option Scene :=
  match reg.cameraToScene.lookup camera_id with
  | none => none
  | some idx => reg.scenes.get? idx

/-- All camera uids of a scene list, in declaration order (scene by scene,
camera by camera); the duplicate check of `register_scenes` fails exactly
when this list repeats a uid. -/
def allCameraUids (scenes : List Scene) : List String :=
  scenes.flatMap (fun sc => sc.cameras.map Camera.uid)

/-! ## JSON values and the message codec, src/tracker/src/message_handler.cpp

Inbound payloads are rapidjson documents; they are modelled as a plain
JSON value tree (numbers as rationals, object members as an association
list in document order).  A payload whose text fails to parse as JSON is
represented as `none`.  Schema validation happens against an external
schema file; it is represented by a `schemaOk` predicate parameter (the
constant-true predicate when validation is disabled or the schema failed
to load). -/

/-- A JSON value. -/
inductive Json where
  | null
  | bool (b : Bool)
  | num (q : ℚ)
  | str (s : String)
  | arr (elems : List Json)
  | obj (members : List (String × Json))
  deriving Repr

/-- Member lookup on a JSON object: the one-segment rapidjson Pointer
`Get`, and also `HasMember` access; non-objects have no members. -/
def Json.getMember (j : Json) (key : String) : Option Json :=
  match j with
  | Json.obj members => members.lookup key
  | _ => none

/-- Two-segment rapidjson Pointer `Get`, as in `PTR_BBOX_X` with path
`/bounding_box_px/x`. -/
def Json.getMember2 (j : Json) (key1 key2 : String) : Option Json :=
  match j.getMember key1 with
  | some inner => inner.getMember key2
  | none => none

/-- `rapidjson::Value::GetDouble` on a value the schema guarantees to be a
number (the code omits the type check, see message_handler.cpp line 321);
a non-number yields 0 in the model. -/
def Json.getDouble (j : Json) : ℚ :=
  match j with
  | Json.num q => q
  | _ => 0

/-- `tracker::BoundingBox` fields of a detection (declared in the message
handler header, fields as read by `parseCameraMessage`). -/
structure BoundingBox where
  x : ℚ
  y : ℚ
  width : ℚ
  height : ℚ
  deriving Repr, DecidableEq

/-- A parsed detection: the optional detector id and the bounding box. -/
structure ParsedDetection where
  id : Option Int := none
  bounding_box_px : BoundingBox
  deriving Repr, DecidableEq

/-- A parsed camera message: id, timestamp, and the per-category detection
lists (association list in document order). -/
structure CameraMessage where
  id : String
  timestamp : String
  objects : List (String × List ParsedDetection)
  deriving Repr

/-- `rapidjson::Value::IsInt` followed by `GetInt` on the optional
detection id: only integral numbers count. -/
def Json.getInt? (j : Json) : Option Int :=
  match j with
  | Json.num q => if q.den = 1 then some q.num else none
  | _ => none

/-- The per-detection body of the parse loop in `parseCameraMessage`
(message_handler.cpp lines 299-329): non-objects are skipped, the id is
taken when present and integral, and the detection is kept only when all
four bounding-box pointers resolve. -/
def parseDetection (det : Json) : Option ParsedDetection :=
  match det with
  | Json.obj _ =>
    let idOpt : Option Int :=
      match det.getMember "id" with
      | some v => v.getInt?
      | none => none
    match det.getMember2 "bounding_box_px" "x", det.getMember2 "bounding_box_px" "y",
        det.getMember2 "bounding_box_px" "width", det.getMember2 "bounding_box_px" "height" with
    | some bx, some by', some bw, some bh =>
      some { id := idOpt,
             bounding_box_px :=
               { x := bx.getDouble, y := by'.getDouble,
                 width := bw.getDouble, height := bh.getDouble } }
    | _, _, _, _ => none
  | _ => none

/-- The per-category body of the parse loop in `parseCameraMessage`
(message_handler.cpp lines 288-334): a member whose value is not an array
is skipped, the detections are collected with `parseDetection`, and the
category enters the message only when at least one detection survived. -/
def parseCategoryEntry (entry : String × Json) : Option (String × List ParsedDetection) :=
  match entry.2 with
  | Json.arr dets =>
    let detections := dets.filterMap parseDetection
    if detections.isEmpty then none else some (entry.1, detections)
  | _ => none

/-- `MessageHandler::parseCameraMessage` (message_handler.cpp): reject a
payload that failed JSON parsing or schema validation, then require a
string `/id`, a string `/timestamp` and an object `/objects`, and collect
the category entries. -/
def parseCameraMessage (schemaOk : Json → Bool) (payload : Option Json) :
    Option CameraMessage :=
  match payload with
  | none => none
  | some doc =>
    if schemaOk doc then
      match doc.getMember "id" with
      | some (Json.str idVal) =>
        match doc.getMember "timestamp" with
        | some (Json.str ts) =>
          match doc.getMember "objects" with
          | some (Json.obj members) =>
            some { id := idVal, timestamp := ts,
                   objects := members.filterMap parseCategoryEntry }
          | _ => none
        | _ => none
      | _ => none
    else
      none

/-- `DEFAULT_THING_TYPE`, the category of the dummy track; the constant is
declared in the message handler header, which is not part of the sources.
Its value is irrelevant to the claims. -/
def DEFAULT_THING_TYPE : String := "person"

/-- `MessageHandler::buildDummySceneMessage` (message_handler.cpp lines
355-414), as the JSON document it serializes: scene uid, scene name, the
caller-supplied timestamp, and one fixed dummy track. -/
def buildDummySceneMessage (scene : Scene) (timestamp : String) : Json :=
  Json.obj
    [("id", Json.str scene.uid),
     ("name", Json.str scene.name),
     ("timestamp", Json.str timestamp),
     ("objects", Json.arr
       [Json.obj
         [("id", Json.str "dummy-track-001"),
          ("category", Json.str DEFAULT_THING_TYPE),
          ("translation", Json.arr [Json.num 1, Json.num 2, Json.num 0]),
          ("velocity", Json.arr [Json.num (1/10), Json.num (2/10), Json.num 0]),
          ("size", Json.arr [Json.num (1/2), Json.num (1/2), Json.num (9/5)]),
          ("rotation", Json.arr [Json.num 0, Json.num 0, Json.num 0, Json.num 1])]])]

/-! ## Message handler dispatch, src/tracker/src/message_handler.cpp

`handleCameraMessage` bumps `received`, extracts the camera id from the
topic, parses the payload, resolves the scene and fans out one publish per
validated category.  The atomic counters and the validated-category cache
are the handler state; each publish is recorded as a `Publish`. -/

/-- The topic prefix `scenescape/data/camera/` (TOPIC_CAMERA_PREFIX). -/
def cameraTopicBase : String := "scenescape/data/camera/"

/-- `MessageHandler::extractCameraId` (message_handler.cpp lines 232-245):
empty result when the topic is no longer than the prefix or does not start
with it, otherwise the suffix after the prefix.  The byte-wise compare and
substring of the C++ are expressed on the character lists. -/
def extractCameraId (topic : String) : String :=
  if topic.length ≤ cameraTopicBase.length then ""
  else if cameraTopicBase.data.isPrefixOf topic.data then
    String.mk (topic.data.drop cameraTopicBase.data.length)
  else ""

/-- The mutable state of the message handler: the three counters and the
validated-category cache. -/
structure HandlerState where
  received : Nat := 0
  published : Nat := 0
  rejected : Nat := 0
  validatedCategories : List String := []
  deriving Repr

/-- One call to `mqtt_client_->publish` from the handler: the output topic
components and the serialized scene message. -/
structure Publish where
  sceneUid : String
  category : String
  payload : Json
  deriving Repr

/-- The per-category loop body of `handleCameraMessage` (lines 198-229):
a category seen for the first time is validated and, when invalid, skipped
without entering the cache (insert followed by erase); otherwise the scene
message is built, published, and `published` bumped. -/
def handleCategoryStep (scene : Scene) (timestamp : String)
    (acc : HandlerState × List Publish) (entry : String × List ParsedDetection) :
    HandlerState × List Publish :=
  let st := acc.1
  let pubs := acc.2
  let category := entry.1
  let isNew := !(st.validatedCategories.contains category)
  if isNew && !(isValidTopicSegmentStr category) then
    (st, pubs)
  else
    let st1 := { st with validatedCategories :=
      if isNew then st.validatedCategories ++ [category] else st.validatedCategories }
    let sceneMessage := buildDummySceneMessage scene timestamp
    ({ st1 with published := st1.published + 1 },
     pubs ++ [{ sceneUid := scene.uid, category := category, payload := sceneMessage }])

/-- `MessageHandler::handleCameraMessage` (message_handler.cpp lines
145-230): bump `received`, then drop with a `rejected` bump when the topic
has no camera id, the payload does not parse, or the camera is unknown;
otherwise run the category fan-out. -/
def handleCameraMessage (reg : SceneRegistry) (schemaOk : Json → Bool)
    (st : HandlerState) (topic : String) (payload : Option Json) :
    HandlerState × List Publish :=
  let st := { st with received := st.received + 1 }
  let cameraId := extractCameraId topic
  if cameraId = "" then
    ({ st with rejected := st.rejected + 1 }, [])
  else
    match parseCameraMessage schemaOk payload with
    | none => ({ st with rejected := st.rejected + 1 }, [])
    | some message =>
      match find_scene_for_camera reg cameraId with
      | none => ({ st with rejected := st.rejected + 1 }, [])
      | some scene =>
        message.objects.foldl (handleCategoryStep scene message.timestamp) (st, [])

/-! ## Multiple-object tracker, src/controller/.../MultipleObjectTracker.cpp

The tracker sources under src/ are MultipleObjectTracker.cpp/hpp; the
types and collaborators they use (TrackedObject, TrackManager, the
`match` data associator of ObjectMatching) are declared in headers that
are not part of the sources, so they are modelled from the spec and each
such definition says so.  The double-valued quantities (scores,
positions, thresholds, timestamps) are carried as integers: the embedded
source code only compares them, so any ordered subring of the reals is a
faithful carrier, and the integers keep concrete runs kernel-evaluable
(the classification vector stands for the probability vector scaled by
any common denominator). -/

/-- Modelled from the spec: `rv::tracking::TrackedObject`
(TrackedObject.hpp is not in the sources).  A detection or track snapshot:
the id, the classification probability vector whose maximum component is
the detection score (spec section 3), and the world position. -/
structure TrackedObject where
  id : Nat := 0
  classification : List Int
  position : Int × Int × Int := (0, 0, 0)
  deriving Repr, DecidableEq

/-- `Eigen maxCoeff` over a classification vector: the maximum component
(the vector is nonempty in every real message; the empty vector defaults
to 0 here). -/
def maxCoeff : List Int → Int
  | [] => 0
  | q :: qs => qs.foldl max q

/-- The detection score used by `splitByThreshold`:
`object.classification.maxCoeff()`. -/
def TrackedObject.score (o : TrackedObject) : Int :=
  maxCoeff o.classification

/-- `splitByThreshold` (MultipleObjectTracker.cpp lines 24-39): partition
the detections into those with score at least the threshold (which stay in
`objects`) and the rest (moved to `lowScoreObjects`).  `std::partition`
leaves the order within each part unspecified; the stable
`List.partition` is one admissible order. -/
def splitByThreshold (objects : List TrackedObject) (scoreThreshold : Int) :
    List TrackedObject × List TrackedObject :=
  objects.partition (fun o => scoreThreshold ≤ o.score)

/-- `filterByIndex` (MultipleObjectTracker.cpp lines 12-22): keep the
elements at the listed indices, in index-list order.  An out-of-range
index is undefined behaviour in the C++ (`elements[index]`) and never
occurs under the associator contract; the embedding drops it. -/
def filterByIndex {α : Type} (elements : List α) (indexToKeep : List Nat) : List α :=
  indexToKeep.filterMap (fun i => elements.get? i)

/-- The result triple the `match` associator fills: assignments as
(track index, object index) pairs, plus the two unassigned index lists. -/
structure MatchResult where
  assignments : List (Nat × Nat)
  unassignedTracks : List Nat
  unassignedObjects : List Nat
  deriving Repr, DecidableEq

/-- The type of the `match` data associator (ObjectMatching.hpp is not in
the sources): given tracks and objects it produces a `MatchResult`.  The
distance type and threshold of the C++ signature are already folded into
the function.  The tracker embeddings below take the associator as a
parameter; `matchSpec` is the spec-modelled instance. -/
def Matcher : Type :=
  List TrackedObject → List TrackedObject → MatchResult

/-- Modelled from the spec: track lifecycle states (spec section 3). -/
inductive TrackStatus where
  | Tentative
  | Reliable
  | Unreliable
  | Suspended
  | Deleted
  deriving Repr, DecidableEq

/-- Modelled from the spec: one track owned by the Track Manager
(TrackManager.hpp is not in the sources): the public snapshot, the
lifecycle status, the pending measurement, bookkeeping counters and the
creation timestamp. -/
structure ManagedTrack where
  obj : TrackedObject
  status : TrackStatus
  pending : Option TrackedObject := none
  hitCount : Nat := 0
  createdAt : Int := 0
  deriving Repr, DecidableEq

/-- Modelled from the spec: the Track Manager state: the owned tracks and
the monotonic id source. -/
structure TMState where
  tracks : List ManagedTrack
  nextId : Nat := 0
  deriving Repr, DecidableEq

/-- Modelled from the spec: `TrackManager::getReliableTracks` returns
value snapshots of the tracks with Reliable status. -/
def getReliableTracks (s : TMState) : List TrackedObject :=
  (s.tracks.filter (fun t => t.status == TrackStatus.Reliable)).map ManagedTrack.obj

/-- Modelled from the spec: `TrackManager::getUnreliableTracks`. -/
def getUnreliableTracks (s : TMState) : List TrackedObject :=
  (s.tracks.filter (fun t => t.status == TrackStatus.Unreliable)).map ManagedTrack.obj

/-- Modelled from the spec: `TrackManager::getSuspendedTracks`. -/
def getSuspendedTracks (s : TMState) : List TrackedObject :=
  (s.tracks.filter (fun t => t.status == TrackStatus.Suspended)).map ManagedTrack.obj

/-- Modelled from the spec: `TrackManager::predict` advances every
kinematic filter and changes neither the track set nor statuses nor
pending measurements (spec section 4.3).  The kinematic state itself is
outside the claims, so predict is the identity here. -/
def predict (s : TMState) : TMState := s

/-- Modelled from the spec: `TrackManager::setMeasurement` attaches a
pending measurement to the named track; it fails silently for a Deleted or
unknown track, and a tick never legitimately overwrites a pending
measurement (spec section 4.3); when two cameras reach the same track in
one merge, the first attached measurement is kept (spec section 4.4, the
first camera wins). -/
def setMeasurement (s : TMState) (trackId : Nat) (meas : TrackedObject) : TMState :=
  { s with tracks := s.tracks.map (fun t =>
      if t.obj.id = trackId ∧ t.status ≠ TrackStatus.Deleted ∧ t.pending = none then
        { t with pending := some meas }
      else t) }

/-- Modelled from the spec: `TrackManager::correct` applies each pending
measurement (bumping the hit count) and clears it; the threshold-driven
status transitions are left to the frame-rate derived constants the spec
leaves open, so statuses are unchanged here. -/
def correct (s : TMState) : TMState :=
  { s with tracks := s.tracks.map (fun t =>
      match t.pending with
      | some _ => { t with pending := none, hitCount := t.hitCount + 1 }
      | none => t) }

/-- Modelled from the spec: `TrackManager::createTrack` allocates the next
id, initializes the track from the detection with Tentative status, hit
count 1 and the tick timestamp, and returns the new id. -/
def createTrack (s : TMState) (detection : TrackedObject) (timestamp : Int) : TMState :=
  { tracks := s.tracks ++
      [{ obj := { detection with id := s.nextId }, status := TrackStatus.Tentative,
         pending := none, hitCount := 1, createdAt := timestamp }],
    nextId := s.nextId + 1 }

/-- `MultipleObjectTracker::matchAndAssignMeasurements` (single-camera
overload, MultipleObjectTracker.cpp lines 40-62): run the associator, set
the measurement of every assigned track, and return the still unassigned
tracks along with the unassigned object indices (the C++ out-parameter). -/
def matchAndAssignMeasurements (matcher : Matcher) (s : TMState)
    (tracks objects : List TrackedObject) :
    TMState × List TrackedObject × List Nat :=
  let r := matcher tracks objects
  let s1 := r.assignments.foldl (fun st a =>
    match tracks.get? a.1, objects.get? a.2 with
    | some track, some object => setMeasurement st track.id object
    | _, _ => st) s
  (s1, filterByIndex tracks r.unassignedTracks, r.unassignedObjects)

/-- All intermediate values of one single-camera tick of
`MultipleObjectTracker::track` (lines 71-121), named at the program points
the claims talk about. -/
structure SingleCamRun where
  state : TMState
  high : List TrackedObject
  low : List TrackedObject
  lowRemaining : List TrackedObject
  tierCPool : List TrackedObject
  tierDPool : List TrackedObject
  finalUnassigned : List Nat
  deriving Repr

/-- `MultipleObjectTracker::track` (single-camera overload, lines 71-121):
the empty shortcut predicts and corrects; otherwise split by score, match
the reliable tracks against the high then the low pool, shrink `objects`
to the indices unassigned after the high-score reliable step, match the
unreliable then the suspended tracks against the shrinking pool, correct,
and create one track per remaining unassigned index at `timestamp`.
`lowRemaining` names the low-score detections unassigned after the second
reliable step (the C++ keeps their indices in `unassignedLowScoreObjects`
and never reads them again). -/
def track (matcher : Matcher) (s : TMState) (objects0 : List TrackedObject)
    (timestamp scoreThreshold : Int) : SingleCamRun :=
  if objects0.isEmpty then
    { state := correct (predict s), high := [], low := [], lowRemaining := [],
      tierCPool := [], tierDPool := [], finalUnassigned := [] }
  else
    let split := splitByThreshold objects0 scoreThreshold
    let objects := split.1
    let lowScoreObjects := split.2
    let s1 := predict s
    let tracks0 := getReliableTracks s1
    let stepA := matchAndAssignMeasurements matcher s1 tracks0 objects
    let s2 := stepA.1
    let tracks1 := stepA.2.1
    let unassignedObjects := stepA.2.2
    let stepB := matchAndAssignMeasurements matcher s2 tracks1 lowScoreObjects
    let s3 := stepB.1
    let unassignedLowScoreObjects := stepB.2.2
    let objects1 := filterByIndex objects unassignedObjects
    let stepC := matchAndAssignMeasurements matcher s3 (getUnreliableTracks s3) objects1
    let s4 := stepC.1
    let unassignedObjects1 := stepC.2.2
    let objects2 := filterByIndex objects1 unassignedObjects1
    let stepD := matchAndAssignMeasurements matcher s4 (getSuspendedTracks s4) objects2
    let s5 := stepD.1
    let unassignedObjects2 := stepD.2.2
    let s6 := correct s5
    let s7 := (filterByIndex objects2 unassignedObjects2).foldl
      (fun st object => createTrack st object timestamp) s6
    { state := s7, high := objects, low := lowScoreObjects,
      lowRemaining := filterByIndex lowScoreObjects unassignedLowScoreObjects,
      tierCPool := objects1, tierDPool := objects2,
      finalUnassigned := unassignedObjects2 }

/-- The sequential assignment phase of the multi-camera
`matchAndAssignMeasurements` (lines 150-162): apply the per-camera
assignments in camera order, setting each assigned track measurement and
marking the track index as assigned. -/
def applyCameraAssignments (tracks cameraObjects : List TrackedObject)
    (assignments : List (Nat × Nat)) (acc : TMState × List Bool) :
    TMState × List Bool :=
  assignments.foldl (fun acc a =>
    let st :=
      match tracks.get? a.1, cameraObjects.get? a.2 with
      | some track, some object => setMeasurement acc.1 track.id object
      | _, _ => acc.1
    (st, acc.2.set a.1 true)) acc

/-- `MultipleObjectTracker::matchAndAssignMeasurements` (multi-camera
overload, lines 124-185): match every camera against the same track
snapshot, then sequentially apply the assignments camera by camera, shrink
every camera pool to its per-camera unassigned indices, and return the
tracks no camera assigned.  Returns (state, per-camera remaining objects,
unassigned tracks). -/
def matchAndAssignMeasurementsMulti (matcher : Matcher) (s : TMState)
    (tracks : List TrackedObject) (objectsPerCamera : List (List TrackedObject)) :
    TMState × List (List TrackedObject) × List TrackedObject :=
  if objectsPerCamera.length = 0 ∨ tracks.length = 0 then
    (s, objectsPerCamera, tracks)
  else
    let results := objectsPerCamera.map (fun objects => matcher tracks objects)
    let merged := (results.zip objectsPerCamera).foldl
      (fun acc pr => applyCameraAssignments tracks pr.2 pr.1.assignments acc)
      (s, List.replicate tracks.length false)
    let filteredObjects := (objectsPerCamera.zip results).map
      (fun pr => filterByIndex pr.1 pr.2.unassignedObjects)
    let unassignedTracks :=
      ((tracks.zip merged.2).filter (fun pr => !pr.2)).map Prod.fst
    (merged.1, filteredObjects, unassignedTracks)

/-! ## The data associator, modelled from the spec

ObjectMatching (the `match` the tracker calls) is declared in a header
that is not part of the sources.  The spec, section 4.2, describes it as a
minimum-total-cost one-to-one assignment under a pluggable distance
metric, with pairs over the distance threshold ineligible (treated as
infinite, hence never assigned, which makes the optimum a maximum-
cardinality matching of minimal cost).  Distances are compared through
their squares, so the threshold parameter below is the squared threshold;
the concrete runs in the theorems only exercise forced outcomes, where any
monotone cost surrogate and any tie order give the same result. -/

/-- Modelled from the spec: the distance metric selector (spec 4.2). -/
inductive DistanceType where
  | Euclidean
  | MultiClassEuclidean
  deriving Repr, DecidableEq

/-- Index of the first maximum of a classification vector (the argmax
class; ties go to the lower index). -/
def argmaxIdx (l : List Int) : Nat :=
  (l.foldl (fun acc q =>
      let best := acc.1
      let i := acc.2.1
      let bestIdx := acc.2.2
      if best < q then (q, i + 1, i) else (best, i + 1, bestIdx))
    (0, 0, 0)).2.2

/-- Squared Euclidean distance between the world positions. -/
def sqDist (a b : TrackedObject) : Int :=
  (a.position.1 - b.position.1) ^ 2 + (a.position.2.1 - b.position.2.1) ^ 2 +
    (a.position.2.2 - b.position.2.2) ^ 2

/-- Modelled from the spec: the pair cost under a distance type; `none` is
the infinite cost MultiClassEuclidean gives different argmax classes. -/
def distCost (dt : DistanceType) (track object : TrackedObject) : Option Int :=
  match dt with
  | DistanceType.Euclidean => some (sqDist track object)
  | DistanceType.MultiClassEuclidean =>
    if argmaxIdx track.classification = argmaxIdx object.classification then
      some (sqDist track object)
    else
      none

/-- A pair is eligible when its cost is finite and within the (squared)
threshold. -/
def eligiblePair (dt : DistanceType) (sqThreshold : Int)
    (tracks objects : List TrackedObject) (p : Nat × Nat) : Bool :=
  match tracks.get? p.1, objects.get? p.2 with
  | some track, some object =>
    match distCost dt track object with
    | some d => decide (d ≤ sqThreshold)
    | none => false
  | _, _ => false

/-- A candidate assignment: every pair eligible, and each track index and
each object index used at most once. -/
def isCandidateAssignment (dt : DistanceType) (sqThreshold : Int)
    (tracks objects : List TrackedObject) (ps : List (Nat × Nat)) : Bool :=
  ps.all (eligiblePair dt sqThreshold tracks objects) &&
    decide (ps.map Prod.fst).Nodup && decide (ps.map Prod.snd).Nodup

/-- Total cost of a candidate assignment. -/
def assignmentCost (dt : DistanceType) (tracks objects : List TrackedObject)
    (ps : List (Nat × Nat)) : Int :=
  (ps.map (fun p =>
    match tracks.get? p.1, objects.get? p.2 with
    | some track, some object => (distCost dt track object).getD 0
    | _, _ => 0)).sum

/-- Strict preference between candidates: more pairs first, then lower
total cost.  The enumeration below keeps the first optimum it meets, so
exact ties follow the enumeration order; the concrete runs in this file
have a unique optimum. -/
def betterAssignment (dt : DistanceType) (tracks objects : List TrackedObject)
    (a b : List (Nat × Nat)) : Bool :=
  b.length < a.length ||
    (a.length == b.length &&
      decide (assignmentCost dt tracks objects a < assignmentCost dt tracks objects b))

/-- Modelled from the spec: the `match` data associator (spec 4.2).
Enumerates every candidate one-to-one assignment over the index grid and
keeps a maximum-cardinality, minimum-cost one; the unassigned index lists
are the complements in increasing order. -/
def matchSpec (dt : DistanceType) (sqThreshold : Int) : Matcher :=
  fun tracks objects =>
    let allPairs := (List.range tracks.length).flatMap
      (fun i => (List.range objects.length).map (fun j => (i, j)))
    let candidates := allPairs.sublists.filter
      (isCandidateAssignment dt sqThreshold tracks objects)
    let best := candidates.foldl
      (fun acc c => if betterAssignment dt tracks objects c acc then c else acc) []
    { assignments := best
      unassignedTracks := (List.range tracks.length).filter
        (fun i => !(best.any (fun p => p.1 == i)))
      unassignedObjects := (List.range objects.length).filter
        (fun j => !(best.any (fun p => p.2 == j))) }

/-! ## Proof-side definitions

These definitions are not embeddings; they name the invariants and
auxiliary values the theorems below speak about. -/

/-- Proof-side invariant of the camera-to-scene map: every entry points to
a scene index inside the scene list, and the scene at that index does list
the camera uid. -/
def MapInv (scenes : List Scene) (reg : SceneRegistry) : Prop :=
  ∀ p ∈ reg.cameraToScene, p.2 < scenes.length ∧
    p.1 ∈ (scenes.getD p.2 ⟨"", "", []⟩).cameras.map Camera.uid

/-- Proof-side description of the tracks appended by the new-track loop:
one Tentative track per detection, with consecutively allocated ids. -/
def creations (timestamp : Int) : Nat → List TrackedObject → List ManagedTrack
  | _, [] => []
  | n, d :: ds =>
    { obj := { d with id := n }, status := TrackStatus.Tentative,
      pending := none, hitCount := 1, createdAt := timestamp } :: creations timestamp (n + 1) ds

/-! # Theorems -/

/-! ## C9, the topic-segment predicate -/

/-- C9: `isValidTopicSegment` returns false for every segment containing
one of the slash (47), plus (43), hash (35), dollar (36) bytes, any
whitespace or other control byte (all bytes up to 32, and 127), and
returns true for every nonempty segment whose bytes all lie in the
character class A-Z, a-z, 0-9, dot, underscore, hyphen. -/
theorem topicSegment_predicate :
    (∀ (s : List Nat) (c : Nat), c ∈ s →
      (c = 47 ∨ c = 43 ∨ c = 35 ∨ c = 36 ∨ c ≤ 32 ∨ c = 127) →
      isValidTopicSegment s = false) ∧
    (∀ s : List Nat, s ≠ [] →
      (∀ c ∈ s, (65 ≤ c ∧ c ≤ 90) ∨ (97 ≤ c ∧ c ≤ 122) ∨ (48 ≤ c ∧ c ≤ 57) ∨
        c = 46 ∨ c = 95 ∨ c = 45) →
      isValidTopicSegment s = true) := by
  constructor
  · intro s c hc hbad
    cases s with
    | nil => cases hc
    | cons a l =>
      simp only [isValidTopicSegment, List.isEmpty_cons, if_neg]
      refine List.all_eq_false.2 ⟨c, hc, ?_⟩
      simp only [isAllowedTopicByte, isalnum, Bool.or_eq_true, Bool.and_eq_true,
        decide_eq_true_eq, beq_iff_eq, not_or]
      rcases hbad with h | h | h | h | h | h <;> omega
  · intro s hne hall
    cases s with
    | nil => exact absurd rfl hne
    | cons a l =>
      simp only [isValidTopicSegment, List.isEmpty_cons, if_neg]
      refine List.all_eq_true.2 ?_
      intro c hc
      have h := hall c hc
      simp only [isAllowedTopicByte, isalnum, Bool.or_eq_true, Bool.and_eq_true,
        decide_eq_true_eq, beq_iff_eq]
      rcases h with h | h | h | h | h | h <;> omega

/-- C9 witness: the predicate evaluated on the segment a/b (refused) and
on Cam-1.x_2 (accepted). -/
theorem topicSegment_predicate_witness :
    isValidTopicSegment [97, 47, 98] = false ∧
    isValidTopicSegment [67, 97, 109, 45, 49, 46, 120, 95, 50] = true :=
  ⟨topicSegment_predicate.1 [97, 47, 98] 47 (by decide) (by decide),
   topicSegment_predicate.2 [67, 97, 109, 45, 49, 46, 120, 95, 50] (by decide)
     (by intro c hc; fin_cases hc <;> simp)⟩

/-! ## C7, the CONNACK failure classification -/

/-- C7: the connect failure is classified non-retryable exactly for the
CONNACK return codes 1, 2, 4 and 5, and the exit code stored by
`on_failure` for a connect failure is 0 for the non-retryable codes and 1
for every other code. -/
theorem connack_classification :
    ∀ rc : Int,
      (isRetryableConnectError rc = false ↔ (rc = 1 ∨ rc = 2 ∨ rc = 4 ∨ rc = 5)) ∧
      onFailureConnectExitCode rc =
        (if rc = 1 ∨ rc = 2 ∨ rc = 4 ∨ rc = 5 then 0 else 1) := by
  intro rc
  unfold onFailureConnectExitCode isRetryableConnectError
  split <;> simp_all

/-! ## C5, the shutdown drain wait -/

/-- The spin loop never exits while the counter always reads positive. -/
theorem drainLoop_stuck_on_const_one :
    ∀ (fuel i : Nat), drainLoop (fun _ => 1) fuel i = none := by
  intro fuel
  induction fuel with
  | zero => intro i; rfl
  | succ n ih => intro i; simpa [drainLoop] using ih (i + 1)

/-- C5: contrary to the claim, the drain wait of `disconnect` is not
bounded by the drain timeout: the timeout argument does not influence the
loop at all, and with an in-flight callback that never completes (the
counter reads 1 at every check) the loop is still spinning after any
number of one-millisecond iterations, in particular after the default
500. -/
theorem disconnect_drain_unbounded :
    (∀ (t1 t2 fuel : Nat) (counter : Nat → Nat),
      disconnectDrain t1 counter fuel = disconnectDrain t2 counter fuel) ∧
    (∀ (t fuel : Nat), disconnectDrain t (fun _ => 1) fuel = none) := by
  constructor
  · intro t1 t2 fuel counter
    rfl
  · intro t fuel
    exact drainLoop_stuck_on_const_one fuel 0

/-! ## C6, empty environment overrides -/

/-- C6: contrary to the claim, an override variable set to the empty
string is not treated as unset: `get_env` reports it as present, the
empty string fails `parse_log_level` (resp. `parse_port`), and the load
fails instead of returning the config-file value. -/
theorem emptyEnvOverride_fails :
    applyEnvOverrides ⟨"debug", 9000⟩
        (fun name => if name = "TRACKER_LOG_LEVEL" then some "" else none)
      = Except.error "Invalid TRACKER_LOG_LEVEL: " ∧
    applyEnvOverrides ⟨"debug", 9000⟩
        (fun name => if name = "TRACKER_HEALTHCHECK_PORT" then some "" else none)
      = Except.error "Invalid TRACKER_HEALTHCHECK_PORT: " := by
  constructor <;> rfl

/-! ## C8 and C10, the message codec -/

/-- Dissection of a successful `parseCameraMessage`: the document passed
validation, carries the string id and timestamp the message holds, and the
message objects are the surviving category entries. -/
theorem parseCameraMessage_some
    (schemaOk : Json → Bool) (doc : Json) (msg : CameraMessage)
    (h : parseCameraMessage schemaOk (some doc) = some msg) :
    schemaOk doc = true ∧
    doc.getMember "id" = some (Json.str msg.id) ∧
    doc.getMember "timestamp" = some (Json.str msg.timestamp) ∧
    ∃ members, doc.getMember "objects" = some (Json.obj members) ∧
      msg.objects = members.filterMap parseCategoryEntry := by
  simp only [parseCameraMessage] at h
  by_cases hs : schemaOk doc
  · rw [if_pos hs] at h
    rcases h1 : doc.getMember "id" with - | jid
    · rw [h1] at h; simp at h
    · rw [h1] at h
      cases jid with
      | null => simp at h
      | bool b => simp at h
      | num q => simp at h
      | arr xs => simp at h
      | obj ms => simp at h
      | str idv =>
        rcases h2 : doc.getMember "timestamp" with - | jts
        · rw [h2] at h; simp at h
        · rw [h2] at h
          cases jts with
          | null => simp at h
          | bool b => simp at h
          | num q => simp at h
          | arr xs => simp at h
          | obj ms => simp at h
          | str ts =>
            rcases h3 : doc.getMember "objects" with - | jobjs
            · rw [h3] at h; simp at h
            · rw [h3] at h
              cases jobjs with
              | null => simp at h
              | bool b => simp at h
              | num q => simp at h
              | arr xs => simp at h
              | str s2 => simp at h
              | obj members =>
                simp only [Option.some.injEq] at h
                subst h
                exact ⟨hs, rfl, rfl, members, rfl, rfl⟩
  · rw [if_neg hs] at h
    simp at h

/-- C8: when an inbound camera payload parses successfully, the scene
message built from the parsed timestamp carries a timestamp field equal to
the timestamp field of the inbound payload. -/
theorem timestamp_roundtrip :
    ∀ (schemaOk : Json → Bool) (payload : Option Json) (msg : CameraMessage) (scene : Scene),
      parseCameraMessage schemaOk payload = some msg →
      (buildDummySceneMessage scene msg.timestamp).getMember "timestamp"
          = some (Json.str msg.timestamp) ∧
      ∃ doc, payload = some doc ∧
        doc.getMember "timestamp" = some (Json.str msg.timestamp) := by
  intro schemaOk payload msg scene h
  cases payload with
  | none => simp [parseCameraMessage] at h
  | some doc =>
    exact ⟨rfl, doc, rfl, (parseCameraMessage_some schemaOk doc msg h).2.2.1⟩

/-- C8 witness: a concrete payload whose timestamp survives to the built
scene message unchanged. -/
theorem timestamp_roundtrip_witness :
    (buildDummySceneMessage ⟨"scene-1", "Lobby", []⟩ "2026-01-02T03:04:05Z").getMember
        "timestamp" = some (Json.str "2026-01-02T03:04:05Z") :=
  (timestamp_roundtrip (fun _ => true)
    (some (Json.obj [("id", Json.str "cam-1"),
                     ("timestamp", Json.str "2026-01-02T03:04:05Z"),
                     ("objects", Json.obj [])]))
    { id := "cam-1", timestamp := "2026-01-02T03:04:05Z", objects := [] }
    ⟨"scene-1", "Lobby", []⟩ rfl).1

/-- A surviving category entry keeps its key and carries the nonempty list
of detections parsed from its array. -/
theorem parseCategoryEntry_some (entry : String × Json)
    (pr : String × List ParsedDetection) (h : parseCategoryEntry entry = some pr) :
    pr.1 = entry.1 ∧
    ∃ dets, entry.2 = Json.arr dets ∧
      pr.2 = dets.filterMap parseDetection ∧ dets.filterMap parseDetection ≠ [] := by
  rcases entry with ⟨k, v⟩
  cases v <;> simp only [parseCategoryEntry] at h <;> (try cases h)
  case arr dets =>
    by_cases he : (dets.filterMap parseDetection).isEmpty
    · rw [if_pos he] at h; cases h
    · rw [if_neg he] at h
      simp only [Option.some.injEq] at h
      subst h
      exact ⟨rfl, dets, rfl, rfl, by simpa [List.isEmpty_iff] using he⟩

/-- Counter and publish bookkeeping of the category fan-out loop:
`received` is untouched, `published` grows once per recorded publish, and
every recorded publish either was already present or names one of the
processed categories. -/
theorem handleCategoryFold_inv (scene : Scene) (ts : String) :
    ∀ (entries : List (String × List ParsedDetection))
      (st : HandlerState) (pubs : List Publish),
      (entries.foldl (handleCategoryStep scene ts) (st, pubs)).1.received = st.received ∧
      (entries.foldl (handleCategoryStep scene ts) (st, pubs)).1.published + pubs.length
        = st.published + (entries.foldl (handleCategoryStep scene ts) (st, pubs)).2.length ∧
      (∀ p ∈ (entries.foldl (handleCategoryStep scene ts) (st, pubs)).2,
        p ∈ pubs ∨ p.category ∈ entries.map Prod.fst) := by
  intro entries
  induction entries with
  | nil => intro st pubs; exact ⟨rfl, rfl, fun p hp => Or.inl hp⟩
  | cons e rest ih =>
    intro st pubs
    simp only [List.foldl_cons]
    rcases hstep : handleCategoryStep scene ts (st, pubs) e with ⟨st1, pubs1⟩
    obtain ⟨ihr, ihp, ihm⟩ := ih st1 pubs1
    have hcase :
        (st1.received = st.received ∧ st1.published = st.published ∧ pubs1 = pubs) ∨
        (st1.received = st.received ∧ st1.published = st.published + 1 ∧
          ∃ q, pubs1 = pubs ++ [q] ∧ q.category = e.1) := by
      simp only [handleCategoryStep] at hstep
      by_cases hskip :
          (!(st.validatedCategories.contains e.1) && !(isValidTopicSegmentStr e.1)) = true
      · rw [if_pos hskip] at hstep
        cases hstep
        exact Or.inl ⟨rfl, rfl, rfl⟩
      · rw [if_neg hskip] at hstep
        cases hstep
        exact Or.inr ⟨rfl, rfl, _, rfl, rfl⟩
    rcases hcase with ⟨hr, hp, hq⟩ | ⟨hr, hp, q, hq, hqc⟩
    · subst hq
      refine ⟨by rw [ihr, hr], by rw [ihp, hp], ?_⟩
      intro p hp1
      rcases ihm p hp1 with hin | hin
      · exact Or.inl hin
      · exact Or.inr (List.mem_cons_of_mem _ hin)
    · subst hq
      refine ⟨by rw [ihr, hr], ?_, ?_⟩
      · rw [hp] at ihp
        simp only [List.length_append, List.length_cons, List.length_nil] at ihp ⊢
        omega
      · intro p hp1
        rcases ihm p hp1 with hin | hin
        · rcases List.mem_append.1 hin with hin | hin
          · exact Or.inl hin
          · simp only [List.mem_singleton] at hin
            subst hin
            exact Or.inr (by simp [hqc])
        · exact Or.inr (List.mem_cons_of_mem _ hin)

/-- C10: a category of the inbound payload all of whose array elements
fail detection parsing (in particular an empty array) is missing from the
parsed message; the handler run on that payload publishes nothing under
that category, bumps `published` only once per actual publish, and bumps
`received` exactly once. -/
theorem emptyCategory_omitted :
    ∀ (reg : SceneRegistry) (schemaOk : Json → Bool) (st : HandlerState) (topic : String)
      (doc : Json) (members : List (String × Json)) (msg : CameraMessage) (c : String),
      parseCameraMessage schemaOk (some doc) = some msg →
      doc.getMember "objects" = some (Json.obj members) →
      (∀ v, (c, v) ∈ members → ∃ dets, v = Json.arr dets ∧
        ∀ d ∈ dets, parseDetection d = none) →
      c ∉ msg.objects.map Prod.fst ∧
      (handleCameraMessage reg schemaOk st topic (some doc)).1.received = st.received + 1 ∧
      (∀ p ∈ (handleCameraMessage reg schemaOk st topic (some doc)).2, p.category ≠ c) ∧
      (handleCameraMessage reg schemaOk st topic (some doc)).1.published
        = st.published + (handleCameraMessage reg schemaOk st topic (some doc)).2.length := by
  intro reg schemaOk st topic doc members msg c hparse hobjs hempty
  obtain ⟨-, -, -, members0, hobjs0, hmsgobjs⟩ := parseCameraMessage_some schemaOk doc msg hparse
  rw [hobjs] at hobjs0
  simp only [Option.some.injEq, Json.obj.injEq] at hobjs0
  subst hobjs0
  have hnotin : c ∉ msg.objects.map Prod.fst := by
    rw [hmsgobjs]
    intro hc
    rcases List.mem_map.1 hc with ⟨pr, hpr, hkey⟩
    rcases List.mem_filterMap.1 hpr with ⟨entry, hentry, hsome⟩
    obtain ⟨hk, dets, harr, -, hne⟩ := parseCategoryEntry_some entry pr hsome
    rcases entry with ⟨k, v⟩
    have hkc : k = c := by rw [← hkey]; exact hk.symm
    subst hkc
    obtain ⟨dets1, harr1, hall⟩ := hempty v hentry
    have harr2 : Json.arr dets1 = Json.arr dets := by rw [← harr1]; exact harr
    simp only [Json.arr.injEq] at harr2
    subst harr2
    exact hne (List.filterMap_eq_nil_iff.2 hall)
  refine ⟨hnotin, ?_⟩
  simp only [handleCameraMessage, hparse]
  by_cases hcid : extractCameraId topic = ""
  · rw [if_pos hcid]
    exact ⟨rfl, by simp, by simp⟩
  · rw [if_neg hcid]
    rcases hfind : find_scene_for_camera reg (extractCameraId topic) with - | scene
    · exact ⟨rfl, by simp, by simp⟩
    · obtain ⟨hr, hp, hm⟩ := handleCategoryFold_inv scene msg.timestamp msg.objects
        { st with received := st.received + 1 } []
      refine ⟨hr, ?_, ?_⟩
      · intro p hp1
        rcases hm p hp1 with hin | hin
        · cases hin
        · intro hcat
          rw [hcat] at hin
          exact hnotin hin
      · simpa using hp

set_option maxRecDepth 8192 in
/-- C10 witness: a payload with an empty person category and one complete
vehicle detection, handled for a registered camera: person is absent from
the parsed message, received is bumped once, and published matches the one
vehicle publish. -/
theorem emptyCategory_omitted_witness :
    "person" ∉
      ({ id := "cam-1", timestamp := "T0",
         objects := [("vehicle", [⟨none, ⟨1, 2, 3, 4⟩⟩])] } : CameraMessage).objects.map
        Prod.fst ∧
    (handleCameraMessage
        ⟨[⟨"scene-1", "Lobby", [⟨"cam-1", "Cam", {}, {}⟩]⟩], [("cam-1", 0)], [("cam-1", 0)]⟩
        (fun _ => true) {} "scenescape/data/camera/cam-1"
        (some (Json.obj
          [("id", Json.str "cam-1"), ("timestamp", Json.str "T0"),
           ("objects", Json.obj
             [("person", Json.arr []),
              ("vehicle", Json.arr [Json.obj [("bounding_box_px", Json.obj
                [("x", Json.num 1), ("y", Json.num 2), ("width", Json.num 3),
                 ("height", Json.num 4)])]])])]))).1.received
      = ({} : HandlerState).received + 1 ∧
    (handleCameraMessage
        ⟨[⟨"scene-1", "Lobby", [⟨"cam-1", "Cam", {}, {}⟩]⟩], [("cam-1", 0)], [("cam-1", 0)]⟩
        (fun _ => true) {} "scenescape/data/camera/cam-1"
        (some (Json.obj
          [("id", Json.str "cam-1"), ("timestamp", Json.str "T0"),
           ("objects", Json.obj
             [("person", Json.arr []),
              ("vehicle", Json.arr [Json.obj [("bounding_box_px", Json.obj
                [("x", Json.num 1), ("y", Json.num 2), ("width", Json.num 3),
                 ("height", Json.num 4)])]])])]))).1.published
      = ({} : HandlerState).published +
        (handleCameraMessage
          ⟨[⟨"scene-1", "Lobby", [⟨"cam-1", "Cam", {}, {}⟩]⟩], [("cam-1", 0)], [("cam-1", 0)]⟩
          (fun _ => true) {} "scenescape/data/camera/cam-1"
          (some (Json.obj
            [("id", Json.str "cam-1"), ("timestamp", Json.str "T0"),
             ("objects", Json.obj
               [("person", Json.arr []),
                ("vehicle", Json.arr [Json.obj [("bounding_box_px", Json.obj
                  [("x", Json.num 1), ("y", Json.num 2), ("width", Json.num 3),
                   ("height", Json.num 4)])]])])]))).2.length := by
  have h := emptyCategory_omitted
    ⟨[⟨"scene-1", "Lobby", [⟨"cam-1", "Cam", {}, {}⟩]⟩], [("cam-1", 0)], [("cam-1", 0)]⟩
    (fun _ => true) {} "scenescape/data/camera/cam-1"
    (Json.obj
      [("id", Json.str "cam-1"), ("timestamp", Json.str "T0"),
       ("objects", Json.obj
         [("person", Json.arr []),
          ("vehicle", Json.arr [Json.obj [("bounding_box_px", Json.obj
            [("x", Json.num 1), ("y", Json.num 2), ("width", Json.num 3),
             ("height", Json.num 4)])]])])])
    [("person", Json.arr []),
     ("vehicle", Json.arr [Json.obj [("bounding_box_px", Json.obj
       [("x", Json.num 1), ("y", Json.num 2), ("width", Json.num 3),
        ("height", Json.num 4)])]])]
    { id := "cam-1", timestamp := "T0",
      objects := [("vehicle", [⟨none, ⟨1, 2, 3, 4⟩⟩])] }
    "person" rfl rfl ?_
  · exact ⟨h.1, h.2.1, h.2.2.2⟩
  · intro v hv
    simp only [List.mem_cons, List.mem_singleton, Prod.mk.injEq] at hv
    rcases hv with ⟨-, hv⟩ | ⟨hv, -⟩ | hv
    · subst hv
      exact ⟨[], rfl, by simp⟩
    · exact absurd hv.symm (by simp)
    · cases hv

/-! ## C4 and C3, the single-camera tick -/

/-- Everything `filterByIndex` keeps is an element of the input list. -/
theorem filterByIndex_subset {α : Type} (elements : List α) (idxs : List Nat) :
    ∀ x ∈ filterByIndex elements idxs, x ∈ elements := by
  intro x hx
  rcases List.mem_filterMap.1 hx with ⟨i, -, hget⟩
  exact List.get?_mem hget

/-- The high-score part of the split: score at least the threshold, drawn
from the input. -/
theorem splitByThreshold_high (objects : List TrackedObject) (θ : Int) :
    ∀ o ∈ (splitByThreshold objects θ).1, o ∈ objects ∧ θ ≤ o.score := by
  intro o ho
  rw [splitByThreshold, List.partition_eq_filter_filter] at ho
  exact ⟨List.mem_of_mem_filter ho, by simpa using List.of_mem_filter ho⟩

/-- The low-score part of the split: score below the threshold, drawn from
the input. -/
theorem splitByThreshold_low (objects : List TrackedObject) (θ : Int) :
    ∀ o ∈ (splitByThreshold objects θ).2, o ∈ objects ∧ o.score < θ := by
  intro o ho
  rw [splitByThreshold, List.partition_eq_filter_filter] at ho
  refine ⟨List.mem_of_mem_filter ho, ?_⟩
  have := List.of_mem_filter ho
  simp only [Function.comp_apply, Bool.not_eq_true', decide_eq_false_iff_not, not_le] at this
  exact this

/-- `setMeasurement` does not change the number of tracks. -/
theorem setMeasurement_tracks_length (s : TMState) (trackId : Nat) (m : TrackedObject) :
    (setMeasurement s trackId m).tracks.length = s.tracks.length := by
  simp [setMeasurement]

/-- A fold whose step keeps the number of tracks keeps the number of
tracks. -/
theorem foldl_tracks_length {α : Type} (f : TMState → α → TMState)
    (hf : ∀ st x, (f st x).tracks.length = st.tracks.length) :
    ∀ (l : List α) (s : TMState), (l.foldl f s).tracks.length = s.tracks.length := by
  intro l
  induction l with
  | nil => intro s; rfl
  | cons x rest ih => intro s; rw [List.foldl_cons, ih, hf]

/-- The assignment fold of `matchAndAssignMeasurements` does not change
the number of tracks. -/
theorem matchAndAssign_state_length (matcher : Matcher) (s : TMState)
    (tracks objects : List TrackedObject) :
    (matchAndAssignMeasurements matcher s tracks objects).1.tracks.length
      = s.tracks.length := by
  simp only [matchAndAssignMeasurements]
  refine foldl_tracks_length _ ?_ _ s
  intro st x
  rcases tracks.get? x.1 with - | tr <;> rcases objects.get? x.2 with - | ob <;>
    simp [setMeasurement_tracks_length]

/-- `correct` does not change the number of tracks. -/
theorem correct_tracks_length (s : TMState) :
    (correct s).tracks.length = s.tracks.length := by
  simp [correct]

/-- The new-track loop appends exactly the `creations` of the processed
detections. -/
theorem foldl_createTrack_tracks (t : Int) :
    ∀ (pool : List TrackedObject) (s : TMState),
      (pool.foldl (fun st d => createTrack st d t) s).tracks
        = s.tracks ++ creations t s.nextId pool := by
  intro pool
  induction pool with
  | nil => intro s; simp [creations]
  | cons d rest ih =>
    intro s
    rw [List.foldl_cons, ih]
    simp only [createTrack, creations]
    simp only [List.append_assoc, List.singleton_append]

/-- Membership in `creations`: Tentative status, the tick timestamp, and
the classification and position of one of the detections. -/
theorem creations_mem (t : Int) :
    ∀ (pool : List TrackedObject) (n : Nat) (mt : ManagedTrack),
      mt ∈ creations t n pool →
      mt.createdAt = t ∧ mt.status = TrackStatus.Tentative ∧
        ∃ d ∈ pool, mt.obj.classification = d.classification ∧
          mt.obj.position = d.position := by
  intro pool
  induction pool with
  | nil => intro n mt h; cases h
  | cons d rest ih =>
    intro n mt h
    simp only [creations] at h
    cases h with
    | head => exact ⟨rfl, rfl, d, List.mem_cons_self d rest, rfl, rfl⟩
    | tail _ h2 =>
      obtain ⟨h1, h2a, d1, hd1, h3⟩ := ih (n + 1) mt h2
      exact ⟨h1, h2a, d1, List.mem_cons_of_mem d hd1, h3⟩

/-- The classification-and-position payload of `creations` is the payload
of the processed detections. -/
theorem creations_map (t : Int) :
    ∀ (pool : List TrackedObject) (n : Nat),
      (creations t n pool).map (fun mt => (mt.obj.classification, mt.obj.position))
        = pool.map (fun d => (d.classification, d.position)) := by
  intro pool
  induction pool with
  | nil => intro n; rfl
  | cons d rest ih => intro n; simp [creations, ih]

/-- Shape of a nonempty single-camera tick: some pre-creation state with
the original number of tracks is corrected and then extended by the
new-track loop over the final unassigned pool, and the tier pools shrink
from the high-score split. -/
theorem track_cons_spec (matcher : Matcher) (s : TMState)
    (a : TrackedObject) (as : List TrackedObject) (t θ : Int) :
    ∃ s5 : TMState,
      s5.tracks.length = s.tracks.length ∧
      (track matcher s (a :: as) t θ).state =
        (filterByIndex (track matcher s (a :: as) t θ).tierDPool
            (track matcher s (a :: as) t θ).finalUnassigned).foldl
          (fun st d => createTrack st d t) (correct s5) ∧
      (∀ o ∈ (track matcher s (a :: as) t θ).tierDPool,
        o ∈ (track matcher s (a :: as) t θ).tierCPool) ∧
      (∀ o ∈ (track matcher s (a :: as) t θ).tierCPool,
        o ∈ (splitByThreshold (a :: as) θ).1) ∧
      (∀ o ∈ (track matcher s (a :: as) t θ).lowRemaining,
        o ∈ (splitByThreshold (a :: as) θ).2) := by
  simp only [track, List.isEmpty_cons, Bool.false_eq_true, if_false]
  refine ⟨_, ?_, rfl, ?_, ?_, ?_⟩
  · simp only [matchAndAssign_state_length, correct_tracks_length, predict]
  · exact filterByIndex_subset _ _
  · exact filterByIndex_subset _ _
  · exact filterByIndex_subset _ _

/-- C4: in a nonempty single-camera tick, the tracks created by the tick
are exactly the still-unassigned detections of the final (tier d) pool,
created Tentative at the tick timestamp; every such detection is an input
detection with score at least the threshold, and no detection scoring
below the threshold is in the pool the new-track loop draws from. -/
theorem newTracks_from_unassigned_high_only :
    ∀ (matcher : Matcher) (s : TMState) (objects0 : List TrackedObject) (t θ : Int),
      objects0 ≠ [] →
      ((track matcher s objects0 t θ).state.tracks.drop s.tracks.length).map
          (fun mt => (mt.obj.classification, mt.obj.position))
        = (filterByIndex (track matcher s objects0 t θ).tierDPool
            (track matcher s objects0 t θ).finalUnassigned).map
            (fun d => (d.classification, d.position)) ∧
      (∀ mt ∈ (track matcher s objects0 t θ).state.tracks.drop s.tracks.length,
        mt.createdAt = t ∧ mt.status = TrackStatus.Tentative ∧
          θ ≤ maxCoeff mt.obj.classification) ∧
      (∀ d ∈ filterByIndex (track matcher s objects0 t θ).tierDPool
          (track matcher s objects0 t θ).finalUnassigned,
        d ∈ objects0 ∧ θ ≤ d.score) ∧
      (∀ d : TrackedObject, d.score < θ →
        d ∉ filterByIndex (track matcher s objects0 t θ).tierDPool
          (track matcher s objects0 t θ).finalUnassigned) := by
  intro matcher s objects0 t θ hne
  cases objects0 with
  | nil => exact absurd rfl hne
  | cons a as =>
    obtain ⟨s5, hlen, hstate, hDC, hCH, -⟩ := track_cons_spec matcher s a as t θ
    have hpool : ∀ d ∈ filterByIndex (track matcher s (a :: as) t θ).tierDPool
        (track matcher s (a :: as) t θ).finalUnassigned,
        d ∈ (a :: as) ∧ θ ≤ d.score := by
      intro d hd
      have hd1 := filterByIndex_subset _ _ d hd
      have hd2 := hCH d (hDC d hd1)
      exact splitByThreshold_high (a :: as) θ d hd2
    have hdrop : (track matcher s (a :: as) t θ).state.tracks.drop s.tracks.length
        = creations t (correct s5).nextId
            (filterByIndex (track matcher s (a :: as) t θ).tierDPool
              (track matcher s (a :: as) t θ).finalUnassigned) := by
      rw [hstate, foldl_createTrack_tracks]
      have hlen2 : (correct s5).tracks.length = s.tracks.length := by
        rw [correct_tracks_length, hlen]
      rw [← hlen2, List.drop_left]
    refine ⟨?_, ?_, hpool, ?_⟩
    · rw [hdrop, creations_map]
    · intro mt hmt
      rw [hdrop] at hmt
      obtain ⟨h1, h2, d, hd, h3, -⟩ := creations_mem t _ _ mt hmt
      refine ⟨h1, h2, ?_⟩
      have := (hpool d hd).2
      rw [TrackedObject.score] at this
      rw [h3]
      exact this
    · intro d hlow hd
      have := (hpool d hd).2
      omega

/-- C4 witness: an empty tracker fed one high-score and one low-score
detection; the created tracks carry exactly the final-pool payloads and
the low-score detection is not in the pool the new-track loop reads. -/
theorem newTracks_from_unassigned_high_only_witness :
    ((track (matchSpec DistanceType.Euclidean 25) ⟨[], 0⟩
          [⟨100, [9], (0, 0, 0)⟩, ⟨200, [3], (1, 0, 0)⟩] 7 5).state.tracks.drop
        (⟨[], 0⟩ : TMState).tracks.length).map
        (fun mt => (mt.obj.classification, mt.obj.position))
      = (filterByIndex
          (track (matchSpec DistanceType.Euclidean 25) ⟨[], 0⟩
            [⟨100, [9], (0, 0, 0)⟩, ⟨200, [3], (1, 0, 0)⟩] 7 5).tierDPool
          (track (matchSpec DistanceType.Euclidean 25) ⟨[], 0⟩
            [⟨100, [9], (0, 0, 0)⟩, ⟨200, [3], (1, 0, 0)⟩] 7 5).finalUnassigned).map
          (fun d => (d.classification, d.position)) ∧
    (⟨200, [3], (1, 0, 0)⟩ : TrackedObject) ∉
      filterByIndex
        (track (matchSpec DistanceType.Euclidean 25) ⟨[], 0⟩
          [⟨100, [9], (0, 0, 0)⟩, ⟨200, [3], (1, 0, 0)⟩] 7 5).tierDPool
        (track (matchSpec DistanceType.Euclidean 25) ⟨[], 0⟩
          [⟨100, [9], (0, 0, 0)⟩, ⟨200, [3], (1, 0, 0)⟩] 7 5).finalUnassigned := by
  have h := newTracks_from_unassigned_high_only (matchSpec DistanceType.Euclidean 25)
    ⟨[], 0⟩ [⟨100, [9], (0, 0, 0)⟩, ⟨200, [3], (1, 0, 0)⟩] 7 5 (by decide)
  exact ⟨h.1, h.2.2.2 ⟨200, [3], (1, 0, 0)⟩ (by decide)⟩

/-- C3 amended: in a nonempty single-camera tick the pool handed to the
unreliable tier holds only high-score detections (each an input detection
scoring at least the threshold); the suspended tier uses a sub-pool of the
unreliable-tier pool; and the low-score detections left unassigned after
the reliable tiers score below the threshold and appear in neither of the
two later pools. -/
theorem tierC_pool_high_score_only :
    ∀ (matcher : Matcher) (s : TMState) (objects0 : List TrackedObject) (t θ : Int),
      objects0 ≠ [] →
      (∀ o ∈ (track matcher s objects0 t θ).tierCPool, o ∈ objects0 ∧ θ ≤ o.score) ∧
      (∀ o ∈ (track matcher s objects0 t θ).tierDPool,
        o ∈ (track matcher s objects0 t θ).tierCPool) ∧
      (∀ o ∈ (track matcher s objects0 t θ).lowRemaining,
        o.score < θ ∧ o ∉ (track matcher s objects0 t θ).tierCPool ∧
          o ∉ (track matcher s objects0 t θ).tierDPool) := by
  intro matcher s objects0 t θ hne
  cases objects0 with
  | nil => exact absurd rfl hne
  | cons a as =>
    obtain ⟨s5, -, -, hDC, hCH, hLR⟩ := track_cons_spec matcher s a as t θ
    have hC : ∀ o ∈ (track matcher s (a :: as) t θ).tierCPool,
        o ∈ (a :: as) ∧ θ ≤ o.score :=
      fun o ho => splitByThreshold_high (a :: as) θ o (hCH o ho)
    refine ⟨hC, hDC, ?_⟩
    intro o ho
    have hlow := (splitByThreshold_low (a :: as) θ o (hLR o ho)).2
    refine ⟨hlow, ?_, ?_⟩
    · intro hmem
      have := (hC o hmem).2
      omega
    · intro hmem
      have := (hC o (hDC o hmem)).2
      omega

/-- C3 witness: in the concrete low-score run, the leftover low-score
detection scores below the threshold and sits in neither the tier-c nor
the tier-d pool. -/
theorem tierC_pool_high_score_only_witness :
    (⟨200, [3], (0, 0, 0)⟩ : TrackedObject).score < 5 ∧
    (⟨200, [3], (0, 0, 0)⟩ : TrackedObject) ∉
      (track (matchSpec DistanceType.Euclidean 25)
        ⟨[{ obj := ⟨5, [10], (0, 0, 0)⟩, status := TrackStatus.Unreliable }], 6⟩
        [⟨200, [3], (0, 0, 0)⟩] 1 5).tierCPool ∧
    (⟨200, [3], (0, 0, 0)⟩ : TrackedObject) ∉
      (track (matchSpec DistanceType.Euclidean 25)
        ⟨[{ obj := ⟨5, [10], (0, 0, 0)⟩, status := TrackStatus.Unreliable }], 6⟩
        [⟨200, [3], (0, 0, 0)⟩] 1 5).tierDPool := by
  have h := tierC_pool_high_score_only (matchSpec DistanceType.Euclidean 25)
    ⟨[{ obj := ⟨5, [10], (0, 0, 0)⟩, status := TrackStatus.Unreliable }], 6⟩
    [⟨200, [3], (0, 0, 0)⟩] 1 5 (by decide)
  exact h.2.2 ⟨200, [3], (0, 0, 0)⟩ (by decide)

/-- C3 counterexample: one Unreliable track within matching distance of a
single low-score detection.  The detection is still unassigned after the
reliable tiers, and the associator would match it to the track, yet the
pool the code hands to the unreliable tier is empty, the track receives no
measurement in the tick (hit count stays 0), and the detection is
discarded — the merged high-and-low pool the claim describes is not what
tier c receives. -/
theorem tierC_pool_counterexample :
    (track (matchSpec DistanceType.Euclidean 25)
        ⟨[{ obj := ⟨5, [10], (0, 0, 0)⟩, status := TrackStatus.Unreliable }], 6⟩
        [⟨200, [3], (0, 0, 0)⟩] 1 5).lowRemaining = [⟨200, [3], (0, 0, 0)⟩] ∧
    (matchSpec DistanceType.Euclidean 25 [⟨5, [10], (0, 0, 0)⟩]
        [⟨200, [3], (0, 0, 0)⟩]).assignments = [(0, 0)] ∧
    (track (matchSpec DistanceType.Euclidean 25)
        ⟨[{ obj := ⟨5, [10], (0, 0, 0)⟩, status := TrackStatus.Unreliable }], 6⟩
        [⟨200, [3], (0, 0, 0)⟩] 1 5).tierCPool = [] ∧
    (track (matchSpec DistanceType.Euclidean 25)
        ⟨[{ obj := ⟨5, [10], (0, 0, 0)⟩, status := TrackStatus.Unreliable }], 6⟩
        [⟨200, [3], (0, 0, 0)⟩] 1 5).state.tracks.map ManagedTrack.hitCount = [0] := by
  refine ⟨?_, ?_, ?_, ?_⟩ <;> decide

/-! ## C2, the multi-camera merge -/

/-- C2 amended: when the per-camera association of two cameras assigns the
same track in the same tier, the sequential merge attaches the first
camera's detection as the track's measurement (the second attach finds a
pending measurement and is dropped), but the losing camera's detection is
not returned to the unassigned pool: both cameras' pools come back empty,
so the losing detection is unavailable to later tiers and to new-track
creation. -/
theorem multiCamera_first_wins_loser_consumed :
    ∀ (matcher : Matcher) (mt : ManagedTrack) (tr d0 d1 : TrackedObject) (s : TMState),
      s.tracks = [mt] → mt.obj.id = tr.id → mt.pending = none →
      mt.status ≠ TrackStatus.Deleted →
      matcher [tr] [d0] = ⟨[(0, 0)], [], []⟩ →
      matcher [tr] [d1] = ⟨[(0, 0)], [], []⟩ →
      (matchAndAssignMeasurementsMulti matcher s [tr] [[d0], [d1]]).1.tracks.map
          ManagedTrack.pending = [some d0] ∧
      (matchAndAssignMeasurementsMulti matcher s [tr] [[d0], [d1]]).2.1 = [[], []] := by
  intro matcher mt tr d0 d1 s hst hid hpend hdel hm0 hm1
  simp only [matchAndAssignMeasurementsMulti, List.length_cons, List.length_nil,
    List.length_singleton]
  rw [if_neg (by simp)]
  simp only [List.map_cons, List.map_nil]
  rw [hm0, hm1]
  simp only [List.zip_cons_cons, List.zip_nil_right, List.zip_nil_left, List.foldl_cons,
    List.foldl_nil, applyCameraAssignments]
  simp only [List.get?, setMeasurement, hst, List.map_cons, List.map_nil]
  simp only [hid, hpend, hdel, ne_eq, not_false_iff, and_true, true_and, if_pos]
  simp [filterByIndex]

/-- C2 witness: a Reliable track seen by two cameras at matching
positions; the merge keeps camera 0's detection as the measurement and
returns both pools empty. -/
theorem multiCamera_first_wins_loser_consumed_witness :
    (matchAndAssignMeasurementsMulti (matchSpec DistanceType.Euclidean 25)
        ⟨[{ obj := ⟨7, [10], (0, 0, 0)⟩, status := TrackStatus.Reliable }], 8⟩
        [⟨7, [10], (0, 0, 0)⟩]
        [[⟨100, [9], (0, 0, 0)⟩], [⟨101, [9], (1, 0, 0)⟩]]).1.tracks.map
        ManagedTrack.pending = [some ⟨100, [9], (0, 0, 0)⟩] ∧
    (matchAndAssignMeasurementsMulti (matchSpec DistanceType.Euclidean 25)
        ⟨[{ obj := ⟨7, [10], (0, 0, 0)⟩, status := TrackStatus.Reliable }], 8⟩
        [⟨7, [10], (0, 0, 0)⟩]
        [[⟨100, [9], (0, 0, 0)⟩], [⟨101, [9], (1, 0, 0)⟩]]).2.1 = [[], []] :=
  multiCamera_first_wins_loser_consumed (matchSpec DistanceType.Euclidean 25)
    { obj := ⟨7, [10], (0, 0, 0)⟩, status := TrackStatus.Reliable }
    ⟨7, [10], (0, 0, 0)⟩ ⟨100, [9], (0, 0, 0)⟩ ⟨101, [9], (1, 0, 0)⟩
    ⟨[{ obj := ⟨7, [10], (0, 0, 0)⟩, status := TrackStatus.Reliable }], 8⟩
    rfl rfl rfl (by decide) (by decide) (by decide)

/-- C2 counterexample: both cameras' associations match the one track
(the same tier); after the merge the first camera's detection is the
pending measurement, but the losing second-camera detection is not in any
returned pool — the pools are both empty, refuting the claim that the
losing detection returns to the unassigned pool. -/
theorem multiCamera_loser_not_returned_counterexample :
    (matchSpec DistanceType.Euclidean 25 [⟨7, [10], (0, 0, 0)⟩]
        [⟨100, [9], (0, 0, 0)⟩]).assignments = [(0, 0)] ∧
    (matchSpec DistanceType.Euclidean 25 [⟨7, [10], (0, 0, 0)⟩]
        [⟨101, [9], (1, 0, 0)⟩]).assignments = [(0, 0)] ∧
    (matchAndAssignMeasurementsMulti (matchSpec DistanceType.Euclidean 25)
        ⟨[{ obj := ⟨7, [10], (0, 0, 0)⟩, status := TrackStatus.Reliable }], 8⟩
        [⟨7, [10], (0, 0, 0)⟩]
        [[⟨100, [9], (0, 0, 0)⟩], [⟨101, [9], (1, 0, 0)⟩]]).1.tracks.map
        ManagedTrack.pending = [some ⟨100, [9], (0, 0, 0)⟩] ∧
    (matchAndAssignMeasurementsMulti (matchSpec DistanceType.Euclidean 25)
        ⟨[{ obj := ⟨7, [10], (0, 0, 0)⟩, status := TrackStatus.Reliable }], 8⟩
        [⟨7, [10], (0, 0, 0)⟩]
        [[⟨100, [9], (0, 0, 0)⟩], [⟨101, [9], (1, 0, 0)⟩]]).2.1 = [[], []] := by
  refine ⟨?_, ?_, ?_, ?_⟩ <;> decide

/-! ## C1, scene registration -/

/-- An association-list lookup misses exactly the absent keys. -/
theorem lookup_eq_none_key (k : String) :
    ∀ l : List (String × Nat), l.lookup k = none ↔ k ∉ l.map Prod.fst := by
  intro l
  induction l with
  | nil => simp [List.lookup]
  | cons p rest ih =>
    rcases p with ⟨a, b⟩
    simp only [List.lookup]
    cases hb : k == a
    · have hak : k ≠ a := by simpa using hb
      simp only [List.map_cons, List.mem_cons, ih]
      constructor
      · intro h hk
        rcases hk with hk | hk
        · exact hak hk
        · exact h hk
      · intro h hk
        exact h (Or.inr hk)
    · have hak : k = a := by simpa using hb
      subst hak
      simp

/-- A successful association-list lookup returns a stored pair. -/
theorem lookup_some_mem (k : String) (v : Nat) :
    ∀ l : List (String × Nat), l.lookup k = some v → (k, v) ∈ l := by
  intro l
  induction l with
  | nil => intro h; cases h
  | cons p rest ih =>
    rcases p with ⟨a, b⟩
    intro h
    simp only [List.lookup] at h
    cases hb : k == a with
    | false =>
      rw [hb] at h
      exact List.mem_cons_of_mem _ (ih h)
    | true =>
      rw [hb] at h
      have hak : k = a := by simpa using hb
      subst hak
      cases h
      exact List.mem_cons_self _ _

/-- A list of the shape A ++ a :: B with a further occurrence of `a`
inside A is not duplicate-free. -/
theorem not_nodup_append_cons {α : Type} (a : α) (A B : List α) (ha : a ∈ A) :
    ¬ (A ++ a :: B).Nodup := by
  intro h
  rw [List.nodup_append] at h
  exact h.2.2 ha (List.mem_cons_self a B)

/-- The camera loop of `register_scenes`, completing case: the scene list
is untouched, the map invariant is preserved, the keys grow by exactly the
scanned camera uids, and freedom from duplicates is preserved. -/
theorem registerCamerasLoop_none (scenes : List Scene) (i : Nat) (sc : Scene) :
    ∀ (cams : List Camera) (k : Nat) (reg reg' : SceneRegistry),
      scenes.get? i = some sc →
      (∀ c ∈ cams, c ∈ sc.cameras) →
      reg.scenes = scenes →
      MapInv scenes reg →
      registerCamerasLoop i sc.name cams k reg = (reg', none) →
      reg'.scenes = scenes ∧ MapInv scenes reg' ∧
      reg'.cameraToScene.map Prod.fst
        = reg.cameraToScene.map Prod.fst ++ cams.map Camera.uid ∧
      ((reg.cameraToScene.map Prod.fst).Nodup →
        (reg'.cameraToScene.map Prod.fst).Nodup) := by
  intro cams
  induction cams with
  | nil =>
    intro k reg reg' hget hsub hsc hinv h
    simp only [registerCamerasLoop, Prod.mk.injEq] at h
    rw [← h.1]
    exact ⟨hsc, hinv, by simp, fun hn => hn⟩
  | cons cam rest ih =>
    intro k reg reg' hget hsub hsc hinv h
    simp only [registerCamerasLoop] at h
    rcases hlk : reg.cameraToScene.lookup cam.uid with - | idx
    · rw [hlk] at h
      have hfresh : cam.uid ∉ reg.cameraToScene.map Prod.fst :=
        (lookup_eq_none_key cam.uid reg.cameraToScene).1 hlk
      have hlen : i < scenes.length := List.get?_eq_some.1 hget |>.choose
      have hin : cam.uid ∈ (scenes.getD i ⟨"", "", []⟩).cameras.map Camera.uid := by
        have hgd : scenes.getD i ⟨"", "", []⟩ = sc := by
          rw [List.getD_eq_get?, hget]; rfl
        rw [hgd]
        exact List.mem_map_of_mem Camera.uid (hsub cam (List.mem_cons_self _ _))
      have hinv2 : MapInv scenes
          { reg with
            cameraToScene := reg.cameraToScene ++ [(cam.uid, i)]
            cameraToCamera := reg.cameraToCamera ++ [(cam.uid, k)] } := by
        intro p hp
        rcases List.mem_append.1 hp with hp | hp
        · exact hinv p hp
        · simp only [List.mem_singleton] at hp
          subst hp
          exact ⟨hlen, hin⟩
      obtain ⟨h1, h2, h3, h4⟩ := ih (k + 1)
        { reg with
          cameraToScene := reg.cameraToScene ++ [(cam.uid, i)]
          cameraToCamera := reg.cameraToCamera ++ [(cam.uid, k)] }
        reg' hget (fun c hc => hsub c (List.mem_cons_of_mem _ hc)) hsc hinv2 h
      refine ⟨h1, h2, ?_, ?_⟩
      · rw [h3]
        simp [List.append_assoc]
      · intro hn
        refine h4 ?_
        simp only [List.map_append, List.map_cons, List.map_nil]
        rw [List.nodup_append]
        exact ⟨hn, List.nodup_singleton _,
          fun x hx hx1 => by
            simp only [List.mem_singleton] at hx1
            subst hx1
            exact hfresh hx⟩
    · rw [hlk] at h
      simp at h

/-- The camera loop of `register_scenes`, throwing case: the error names
the current scene as the second offender, a camera uid of this scene, and
as first offender the name of a registered scene that contains the uid;
the uid moreover occurred among the keys already present plus the uids
scanned before it. -/
theorem registerCamerasLoop_some (scenes : List Scene) (i : Nat) (sc : Scene) :
    ∀ (cams : List Camera) (k : Nat) (reg reg' : SceneRegistry) (e : DuplicateCameraError),
      scenes.get? i = some sc →
      (∀ c ∈ cams, c ∈ sc.cameras) →
      reg.scenes = scenes →
      MapInv scenes reg →
      registerCamerasLoop i sc.name cams k reg = (reg', some e) →
      reg'.scenes = scenes ∧
      e.scene2 = sc.name ∧
      e.camera_id ∈ cams.map Camera.uid ∧
      (∃ scE ∈ scenes, scE.name = e.scene1 ∧ e.camera_id ∈ scE.cameras.map Camera.uid) ∧
      (∃ pre cam post, cams = pre ++ cam :: post ∧ cam.uid = e.camera_id ∧
        e.camera_id ∈ reg.cameraToScene.map Prod.fst ++ pre.map Camera.uid) := by
  intro cams
  induction cams with
  | nil =>
    intro k reg reg' e hget hsub hsc hinv h
    simp [registerCamerasLoop] at h
  | cons cam rest ih =>
    intro k reg reg' e hget hsub hsc hinv h
    simp only [registerCamerasLoop] at h
    rcases hlk : reg.cameraToScene.lookup cam.uid with - | idx
    · rw [hlk] at h
      obtain ⟨h0, h1, h2, h3, pre, cam1, post, hdec, huid, hmem⟩ := ih (k + 1)
        { reg with
          cameraToScene := reg.cameraToScene ++ [(cam.uid, i)]
          cameraToCamera := reg.cameraToCamera ++ [(cam.uid, k)] }
        reg' e hget
        (fun c hc => hsub c (List.mem_cons_of_mem _ hc)) hsc
        (by
          intro p hp
          rcases List.mem_append.1 hp with hp | hp
          · exact hinv p hp
          · simp only [List.mem_singleton] at hp
            subst hp
            refine ⟨List.get?_eq_some.1 hget |>.choose, ?_⟩
            have hgd : scenes.getD i ⟨"", "", []⟩ = sc := by
              rw [List.getD_eq_get?, hget]; rfl
            rw [hgd]
            exact List.mem_map_of_mem Camera.uid (hsub cam (List.mem_cons_self _ _)))
        h
      refine ⟨h0, h1, List.mem_cons_of_mem _ h2, h3,
        cam :: pre, cam1, post, by rw [hdec]; rfl, huid, ?_⟩
      simp only [List.map_append, List.map_cons, List.map_nil] at hmem ⊢
      rcases List.mem_append.1 hmem with hm | hm
      · rcases List.mem_append.1 hm with hm | hm
        · exact List.mem_append_left _ hm
        · simp only [List.mem_singleton] at hm
          exact List.mem_append_right _ (by simp [hm])
      · exact List.mem_append_right _ (List.mem_cons_of_mem _ hm)
    · rw [hlk] at h
      simp only [Prod.mk.injEq] at h
      obtain ⟨hreg, he⟩ := h
      rw [Option.some.injEq] at he
      subst he
      have hmeme : (cam.uid, idx) ∈ reg.cameraToScene := lookup_some_mem _ _ _ hlk
      obtain ⟨hlt, hm⟩ := hinv _ hmeme
      refine ⟨by rw [← hreg]; exact hsc, rfl, ?_, ?_, [], cam, rest, rfl, rfl, ?_⟩
      · exact List.mem_cons_self _ _ |> List.mem_map_of_mem Camera.uid
      · refine ⟨scenes.getD idx ⟨"", "", []⟩, ?_, ?_, hm⟩
        · have : scenes.get? idx = some (scenes.getD idx ⟨"", "", []⟩) := by
            rw [List.getD_eq_get?, List.get?_eq_get hlt]; rfl
          exact List.get?_mem this
        · rw [hsc]
      · exact List.mem_append_left _ (List.mem_map_of_mem Prod.fst hmeme)

/-- The scene loop of `register_scenes`, completing case: the keys grow by
every camera uid of the remaining scenes, preserving freedom from
duplicates. -/
theorem registerScenesLoop_none (scenes : List Scene) :
    ∀ (rest : List Scene) (i : Nat) (reg reg' : SceneRegistry),
      reg.scenes = scenes → scenes.drop i = rest → MapInv scenes reg →
      registerScenesLoop rest i reg = (reg', none) →
      reg'.scenes = scenes ∧
      reg'.cameraToScene.map Prod.fst
        = reg.cameraToScene.map Prod.fst ++ allCameraUids rest ∧
      ((reg.cameraToScene.map Prod.fst).Nodup →
        (reg'.cameraToScene.map Prod.fst).Nodup) := by
  intro rest
  induction rest with
  | nil =>
    intro i reg reg' hsc hdrop hinv h
    simp only [registerScenesLoop, Prod.mk.injEq] at h
    rw [← h.1]
    exact ⟨hsc, by simp [allCameraUids], fun hn => hn⟩
  | cons sc rest' ih =>
    intro i reg reg' hsc hdrop hinv h
    simp only [registerScenesLoop] at h
    rcases hc : registerCamerasLoop i sc.name sc.cameras 0 reg with ⟨reg1, err⟩
    rw [hc] at h
    cases err with
    | some e => simp at h
    | none =>
      have hget : scenes.get? i = some sc := by
        have := List.get?_drop scenes i 0
        rw [hdrop] at this
        simpa using this.symm
      obtain ⟨h1, h2, h3, h4⟩ := registerCamerasLoop_none scenes i sc sc.cameras 0 reg reg1
        hget (fun c hc1 => hc1) hsc hinv hc
      have hdrop1 : scenes.drop (i + 1) = rest' := by
        rw [← List.drop_drop 1 i scenes, hdrop]
        rfl
      obtain ⟨g1, g2, g3⟩ := ih (i + 1) reg1 reg' h1 hdrop1 h2 h
      refine ⟨g1, ?_, fun hn => g3 (h4 hn)⟩
      rw [g2, h3, List.append_assoc]
      rfl

/-- The scene loop of `register_scenes`, throwing case: the error carries
a camera uid together with the names of two scenes of the list containing
that uid, and the full uid list of the scene list has a repetition. -/
theorem registerScenesLoop_some (scenes : List Scene) :
    ∀ (rest : List Scene) (i : Nat) (reg reg' : SceneRegistry) (e : DuplicateCameraError),
      reg.scenes = scenes → scenes.drop i = rest →
      reg.cameraToScene.map Prod.fst = allCameraUids (scenes.take i) →
      MapInv scenes reg →
      registerScenesLoop rest i reg = (reg', some e) →
      reg'.scenes = scenes ∧
      (∃ sc ∈ scenes, sc.name = e.scene1 ∧ e.camera_id ∈ sc.cameras.map Camera.uid) ∧
      (∃ sc ∈ scenes, sc.name = e.scene2 ∧ e.camera_id ∈ sc.cameras.map Camera.uid) ∧
      ¬ (allCameraUids scenes).Nodup := by
  intro rest
  induction rest with
  | nil =>
    intro i reg reg' e hsc hdrop hkeys hinv h
    simp [registerScenesLoop] at h
  | cons sc rest' ih =>
    intro i reg reg' e hsc hdrop hkeys hinv h
    simp only [registerScenesLoop] at h
    rcases hc : registerCamerasLoop i sc.name sc.cameras 0 reg with ⟨reg1, err⟩
    rw [hc] at h
    have hget : scenes.get? i = some sc := by
      have := List.get?_drop scenes i 0
      rw [hdrop] at this
      simpa using this.symm
    have hscmem : sc ∈ scenes := by
      have : sc ∈ scenes.drop i := by rw [hdrop]; exact List.mem_cons_self _ _
      exact List.drop_subset i scenes this
    cases err with
    | some e0 =>
      simp only [Prod.mk.injEq, Option.some.injEq] at h
      obtain ⟨hreg, he⟩ := h
      subst he
      obtain ⟨g0, g1, g2, g3, pre, cam, post, hdec, huid, hmem⟩ :=
        registerCamerasLoop_some scenes i sc sc.cameras 0 reg reg1 e0
          hget (fun c hc1 => hc1) hsc hinv hc
      refine ⟨by rw [← hreg]; exact g0, g3, ⟨sc, hscmem, g1.symm, g2⟩, ?_⟩
      have hsplit : scenes = scenes.take i ++ sc :: rest' := by
        rw [← hdrop, List.take_append_drop]
      have hA : allCameraUids scenes
          = (allCameraUids (scenes.take i) ++ pre.map Camera.uid)
            ++ e0.camera_id :: (post.map Camera.uid ++ allCameraUids rest') := by
        conv =>
          lhs
          rw [hsplit]
        rw [allCameraUids, List.flatMap_append]
        rw [← allCameraUids]
        simp only [List.flatMap_cons]
        rw [hdec, ← allCameraUids]
        simp only [List.map_append, List.map_cons]
        rw [huid]
        simp [List.append_assoc]
      rw [hA]
      apply not_nodup_append_cons
      rw [← hkeys]
      exact hmem
    | none =>
      obtain ⟨h1, h2, h3, h4⟩ := registerCamerasLoop_none scenes i sc sc.cameras 0 reg reg1
        hget (fun c hc1 => hc1) hsc hinv hc
      have hdrop1 : scenes.drop (i + 1) = rest' := by
        rw [← List.drop_drop 1 i scenes, hdrop]
        rfl
      have hkeys1 : reg1.cameraToScene.map Prod.fst = allCameraUids (scenes.take (i + 1)) := by
        rw [h3, hkeys, List.take_succ, ← List.get?_eq_getElem?, hget]
        simp [allCameraUids, List.flatMap_append]
      exact ih (i + 1) reg1 reg' e h1 hdrop1 hkeys1 h2 h

/-- C1 amended: `register_scenes` reports a `DuplicateCamera` error
exactly when some camera uid occurs twice in the scene list, and the error
carries a camera uid together with the names of two scenes of the list
containing it; but the registry is not left in its pre-call state: after
the call (failed or not) its scene list is the new input list, the
registrations held before the call being discarded. -/
theorem register_scenes_duplicate_detection :
    ∀ (reg : SceneRegistry) (scenes : List Scene),
      ((register_scenes reg scenes).2.isSome = true ↔ ¬ (allCameraUids scenes).Nodup) ∧
      (register_scenes reg scenes).1.scenes = scenes ∧
      (∀ e, (register_scenes reg scenes).2 = some e →
        (∃ sc ∈ scenes, sc.name = e.scene1 ∧ e.camera_id ∈ sc.cameras.map Camera.uid) ∧
        (∃ sc ∈ scenes, sc.name = e.scene2 ∧ e.camera_id ∈ sc.cameras.map Camera.uid)) := by
  intro reg scenes
  have hbase : register_scenes reg scenes
      = registerScenesLoop scenes 0 ⟨scenes, [], []⟩ := rfl
  rcases hres : registerScenesLoop scenes 0 ⟨scenes, [], []⟩ with ⟨regF, err⟩
  cases err with
  | none =>
    obtain ⟨h1, h2, h3⟩ := registerScenesLoop_none scenes scenes 0 ⟨scenes, [], []⟩ regF
      rfl rfl (fun p hp => absurd hp (List.not_mem_nil p)) hres
    rw [hbase, hres]
    refine ⟨?_, h1, ?_⟩
    · simp only [Option.isSome_none, Bool.false_eq_true, false_iff, not_not]
      have := h3 (List.nodup_nil)
      rw [h2] at this
      simpa using this
    · intro e he
      cases he
  | some e =>
    obtain ⟨h1, h2, h3, h4⟩ := registerScenesLoop_some scenes scenes 0 ⟨scenes, [], []⟩ regF e
      rfl rfl (by simp [allCameraUids]) (fun p hp => absurd hp (List.not_mem_nil p)) hres
    rw [hbase, hres]
    refine ⟨by simp [h4], h1, ?_⟩
    intro e1 he1
    rw [Option.some.injEq] at he1
    subst he1
    exact ⟨h2, h3⟩

/-- C1 witness: registering two scenes sharing cam-Y on a registry that
already held a different registration reports an error naming cam-Y and
both scene names, both scenes containing cam-Y, and the post-call scene
list is the new one. -/
theorem register_scenes_duplicate_detection_witness :
    ((register_scenes
        (register_scenes SceneRegistry.empty [⟨"sA", "Alpha", [⟨"camX", "X", {}, {}⟩]⟩]).1
        [⟨"sB", "Beta", [⟨"camY", "Y", {}, {}⟩]⟩,
         ⟨"sC", "Gamma", [⟨"camY", "Y2", {}, {}⟩]⟩]).2.isSome = true) ∧
    ((register_scenes
        (register_scenes SceneRegistry.empty [⟨"sA", "Alpha", [⟨"camX", "X", {}, {}⟩]⟩]).1
        [⟨"sB", "Beta", [⟨"camY", "Y", {}, {}⟩]⟩,
         ⟨"sC", "Gamma", [⟨"camY", "Y2", {}, {}⟩]⟩]).1.scenes
      = [⟨"sB", "Beta", [⟨"camY", "Y", {}, {}⟩]⟩,
         ⟨"sC", "Gamma", [⟨"camY", "Y2", {}, {}⟩]⟩]) := by
  have h := register_scenes_duplicate_detection
    (register_scenes SceneRegistry.empty [⟨"sA", "Alpha", [⟨"camX", "X", {}, {}⟩]⟩]).1
    [⟨"sB", "Beta", [⟨"camY", "Y", {}, {}⟩]⟩,
     ⟨"sC", "Gamma", [⟨"camY", "Y2", {}, {}⟩]⟩]
  exact ⟨h.1.2 (by simp [allCameraUids]), h.2.1⟩

/-- C1 counterexample: the same run evaluated concretely.  The error is
raised and carries cam-Y with the names Beta and Gamma, but the registry
is not in its pre-call state: the prior registration of scene Alpha with
cam-X is gone — the stored scene names after the failed call are Beta and
Gamma, not Alpha, and the failed call changed the registry. -/
theorem register_scenes_not_restored_counterexample :
    ((register_scenes
        (register_scenes SceneRegistry.empty [⟨"sA", "Alpha", [⟨"camX", "X", {}, {}⟩]⟩]).1
        [⟨"sB", "Beta", [⟨"camY", "Y", {}, {}⟩]⟩,
         ⟨"sC", "Gamma", [⟨"camY", "Y2", {}, {}⟩]⟩]).2
      = some ⟨"camY", "Beta", "Gamma"⟩) ∧
    ((register_scenes SceneRegistry.empty
        [⟨"sA", "Alpha", [⟨"camX", "X", {}, {}⟩]⟩]).1.scenes.map Scene.name = ["Alpha"]) ∧
    ((register_scenes
        (register_scenes SceneRegistry.empty [⟨"sA", "Alpha", [⟨"camX", "X", {}, {}⟩]⟩]).1
        [⟨"sB", "Beta", [⟨"camY", "Y", {}, {}⟩]⟩,
         ⟨"sC", "Gamma", [⟨"camY", "Y2", {}, {}⟩]⟩]).1.scenes.map Scene.name
      = ["Beta", "Gamma"]) ∧
    (register_scenes
        (register_scenes SceneRegistry.empty [⟨"sA", "Alpha", [⟨"camX", "X", {}, {}⟩]⟩]).1
        [⟨"sB", "Beta", [⟨"camY", "Y", {}, {}⟩]⟩,
         ⟨"sC", "Gamma", [⟨"camY", "Y2", {}, {}⟩]⟩]).1
      ≠ (register_scenes SceneRegistry.empty [⟨"sA", "Alpha", [⟨"camX", "X", {}, {}⟩]⟩]).1 := by
  refine ⟨rfl, rfl, rfl, ?_⟩
  intro h
  have := congrArg (fun r => r.scenes.map Scene.name) h
  simp only at this
  rw [show (register_scenes
      (register_scenes SceneRegistry.empty [⟨"sA", "Alpha", [⟨"camX", "X", {}, {}⟩]⟩]).1
      [⟨"sB", "Beta", [⟨"camY", "Y", {}, {}⟩]⟩,
       ⟨"sC", "Gamma", [⟨"camY", "Y2", {}, {}⟩]⟩]).1.scenes.map Scene.name
    = ["Beta", "Gamma"] from rfl] at this
  rw [show (register_scenes SceneRegistry.empty
      [⟨"sA", "Alpha", [⟨"camX", "X", {}, {}⟩]⟩]).1.scenes.map Scene.name
    = ["Alpha"] from rfl] at this
  simp at this

end SceneScape
